import Mathlib

/-!
# Verification of the bounded-parameter batch persistence engine (`storage/storage.py`)

Shallow embedding of the `Storage` class of `src/storage/storage.py`:

* the slice-based chunking loop `for i in range(0, len(xs), step): xs[i : i + step]`
  that every `upsert_*` method uses (`pyChunks`);
* the transactional execution of a chunked upsert call inside one session with a
  single `commit()` after the loop (`chunkedUpsertRun`), with an explicit
  failure-injection point modelling a chunk's `session.execute` raising;
* the relation queries `get_generics_of_generics` and `get_triplets_for`;
* the descriptor upsert `upsert_structures_descriptors` (key-resolution pre-pass
  plus row emission);
* the constructor-time schema bootstrap (`storageInit` / `create_tables`).

Machine integers do not overflow here (Python ints are unbounded), so ids are
modelled as `Int` and sizes as `Nat`.
-/

/-- Recursion worker for `chunkPos`.  Each step consumes at least one element,
so any `fuel ≥ l.length` yields the same result; the `0, _ :: _` arm is never
reached from `chunkPos`. -/
def chunkPosAux (n : Nat) : Nat → List α → List (List α)
  | _, [] => []
  | 0, _ :: _ => []
  | fuel + 1, x :: xs =>
    ((x :: xs).take (n + 1)) :: chunkPosAux n fuel ((x :: xs).drop (n + 1))

/-- The slice chunks of size `n + 1`: the Lean rendering of Python's
`[xs[i : i + step] for i in range(0, len(xs), step)]` for `step = n + 1`.
The empty list yields no chunks (`range(0, 0, step)` is empty); otherwise the
first chunk is `xs[0 : step]` and the rest come from `xs[step :]`. -/
def chunkPos (n : Nat) (l : List α) : List (List α) :=
  chunkPosAux n l.length l

/-- Python slicing loop `for i in range(0, len(xs), step)`. A zero `step` makes
`range` raise `ValueError` before the first iteration; otherwise the slices are
the `chunkPos` chunks of size `step`. -/
def pyChunks (xs : List α) (step : Nat) : Except String (List (List α)) :=
  match step with
  | 0 => Except.error "ValueError: range() arg 3 must not be zero"
  | n + 1 => Except.ok (chunkPos n xs)

/-! ## The per-entity chunking used by the `upsert_*` methods

Every `upsert_*` method slices its input with the same integer-division step:
`self.list_limit // 2` everywhere except `upsert_triplets`, which uses
`self.list_limit // 3`.  `upsertChunksOf d limit xs` is that common pattern. -/

/-- The chunks produced by an upsert method whose slice step is `limit // d`
(`d = 2` for journals, references, structures, taxo names, rank names,
taxo ranks and taxo parenting; `d = 3` for triplets). -/
def upsertChunksOf (d limit : Nat) (xs : List α) : Except String (List (List α)) :=
  pyChunks xs (limit / d)

/-- `upsert_journals`: slice step `self.list_limit // 2`. -/
def upsert_journals_chunks (limit : Nat) (xs : List α) : Except String (List (List α)) :=
  upsertChunksOf 2 limit xs

/-- `upsert_triplets`: slice step `self.list_limit // 3`. -/
def upsert_triplets_chunks (limit : Nat) (xs : List α) : Except String (List (List α)) :=
  upsertChunksOf 3 limit xs

/-- `upsert_references`: slice step `self.list_limit // 2`. -/
def upsert_references_chunks (limit : Nat) (xs : List α) : Except String (List (List α)) :=
  upsertChunksOf 2 limit xs

/-- `upsert_structures`: slice step `self.list_limit // 2`. -/
def upsert_structures_chunks (limit : Nat) (xs : List α) : Except String (List (List α)) :=
  upsertChunksOf 2 limit xs

/-- `upsert_taxo_names`: slice step `self.list_limit // 2`. -/
def upsert_taxo_names_chunks (limit : Nat) (xs : List α) : Except String (List (List α)) :=
  upsertChunksOf 2 limit xs

/-- `upsert_rank_names`: slice step `self.list_limit // 2`. -/
def upsert_rank_names_chunks (limit : Nat) (xs : List α) : Except String (List (List α)) :=
  upsertChunksOf 2 limit xs

/-- `upsert_taxo_ranks`: slice step `self.list_limit // 2`. -/
def upsert_taxo_ranks_chunks (limit : Nat) (xs : List α) : Except String (List (List α)) :=
  upsertChunksOf 2 limit xs

/-- The bound-parameter record `upsert_taxo_parenting` builds for each input
tuple: `{"id": item[0], "child_id": item[1], "parent_id": item[2],
"distance": item[3]}` — four bound columns. -/
structure TaxoParentRow where
  id : Int
  child_id : Int
  parent_id : Int
  distance : Int
deriving DecidableEq, Repr

/-- The tuple-to-record mapping inside `upsert_taxo_parenting`. -/
def taxoParentingRow (t : Int × Int × Int × Int) : TaxoParentRow :=
  { id := t.1, child_id := t.2.1, parent_id := t.2.2.1, distance := t.2.2.2 }

/-- Number of bound parameters per `upsert_taxo_parenting` record: the built
dict binds exactly the four columns `id`, `child_id`, `parent_id`, `distance`. -/
def taxoParentingParams : Nat := 4

/-- `upsert_taxo_parenting`: slice step `self.list_limit // 2`, each slice's
tuples mapped to four-column records before `session.execute`. -/
def upsert_taxo_parenting_chunks (limit : Nat) (xs : List (Int × Int × Int × Int)) :
    Except String (List (List TaxoParentRow)) :=
  (upsertChunksOf 2 limit xs).map (fun chunks => chunks.map (fun c => c.map taxoParentingRow))

/-! ## Transactional execution of one chunked upsert call

Each `upsert_*` method runs `with self.session(autoflush=False) as session:`,
executes one insert per chunk in input order, and calls `session.commit()`
exactly once, after the loop.  The SQLAlchemy session is the transactional
unit-of-work collaborator: work is pending until `commit()`; leaving the
`with` block (normally or through an exception) without committing discards
the pending work.  `runChunks` executes the loop with an injected failure
point (`failAt`): a failing `session.execute` raises the driver's own
exception, rendered as `UpsertError.dbError` with an opaque message.  The
method bodies contain no `try`/`except`, so that exception propagates as-is. -/

/-- Errors observable from an upsert call.  `valueError` is Python's
`ValueError` from `range(..., 0)`; `dbError` is the backing driver's
exception propagated unchanged; `persistenceFailure` is the wrapper error
the specification describes (an error naming the entity kind and the
failing chunk's ordinal) — the source never constructs one. -/
inductive UpsertError where
  | valueError (msg : String)
  | dbError (msg : String)
  | persistenceFailure (kind : String) (ordinal : Nat)
deriving DecidableEq, Repr

/-- Whether an error is of the shape the spec calls `PersistenceFailure`,
i.e. carries an entity kind and a chunk ordinal. -/
def namesKindAndOrdinal : UpsertError → Bool
  | UpsertError.persistenceFailure _ _ => true
  | _ => false

/-- The execute loop of an upsert call: one `session.execute(insert(T), chunk)`
per chunk, in order.  Returns the 0-based indices of the chunks whose execute
was attempted (in attempt order) and either the session's pending rows at loop
exit or the propagated driver error.  `failAt = some j` injects a failure into
chunk `j`'s execute. -/
def runChunks (failAt : Option Nat) (failMsg : String) :
    Nat → List α → List Nat → List (List α) → List Nat × Except UpsertError (List α)
  | _, pending, log, [] => (log.reverse, Except.ok pending)
  | idx, pending, log, chunk :: rest =>
    if failAt = some idx then
      ((idx :: log).reverse, Except.error (UpsertError.dbError failMsg))
    else
      runChunks failAt failMsg (idx + 1) (pending ++ chunk) (idx :: log) rest

/-- One whole upsert call on visible database state `db`: chunk the input with
step `limit / d`, run the execute loop, and commit once after the loop.  The
first component is the state visible after the call: pending rows become
visible only through the single `commit()`, and a raised error ends the
`with` block uncommitted, so the prior state stays visible.  The second
component is the attempted chunk log, the third the call's outcome. -/
def chunkedUpsertRun (d limit : Nat) (db xs : List α)
    (failAt : Option Nat) (failMsg : String) :
    List α × List Nat × Except UpsertError Unit :=
  match upsertChunksOf d limit xs with
  | Except.error e => (db, [], Except.error (UpsertError.valueError e))
  | Except.ok chunks =>
    match runChunks failAt failMsg 0 [] [] chunks with
    | (log, Except.ok pending) => (db ++ pending, log, Except.ok ())
    | (log, Except.error e) => (db, log, Except.error e)

/-! ## Relation Query Engine

A queried table is modelled by the list of its rows projected to the columns
the query touches.  For `get_generics_of_generics(out, inp, items)` a row is
the pair (value of the `inp` column, value of the `out` column); the query
`session.query(out).filter(inp.in_(chunk))` returns the `out` values of the
rows whose `inp` value lies in the chunk (duplicates included — there is no
`.distinct()` on this path; deduplication happens in the Python `set`). -/

/-- The set `get_generics_of_generics` computes, written directly:
the `out` values of all rows whose `inp` value is in `items`. -/
def expandSpec (table : List (Int × Int)) (items : List Int) : Finset Int :=
  ((table.filter (fun r => decide (r.1 ∈ items))).map Prod.snd).toFinset

/-- `get_generics_of_generics`: iterate `items` (the caller's set, as the list
`list(items)`) in slices of `self.list_limit`, query each slice's IN-list, and
accumulate the rows into the output set with `|=`. -/
def get_generics_of_generics (table : List (Int × Int)) (limit : Nat) (items : List Int) :
    Except String (Finset Int) :=
  (pyChunks items limit).map (fun chunks =>
    chunks.foldl (fun output chunk =>
      output ∪ ((table.filter (fun r => decide (r.1 ∈ chunk))).map Prod.snd).toFinset) ∅)

/-- `get_triplets_for`: the triplet table is the list of its rows projected to
`(reference_id, structure_id, taxon_id)` (duplicates allowed — the engine does
not deduplicate on write).  A `None` argument adds no filter; a present set
adds a membership filter on its column; the accumulated filters are applied
conjoined (`.filter(*filters)`) only when at least one is present; the rows
are returned as a set of 3-tuples. -/
def get_triplets_for (db : List (Int × Int × Int))
    (reference_ids structure_ids taxon_ids : Option (Finset Int)) :
    Finset (Int × Int × Int) :=
  let filters : List ((Int × Int × Int) → Bool) :=
    (match reference_ids with
     | some s => [fun row => decide (row.1 ∈ s)]
     | none => []) ++
    (match structure_ids with
     | some s => [fun row => decide (row.2.1 ∈ s)]
     | none => []) ++
    (match taxon_ids with
     | some s => [fun row => decide (row.2.2 ∈ s)]
     | none => [])
  let result :=
    if filters.length > 0 then db.filter (fun row => filters.all (fun f => f row)) else db
  result.toFinset

/-- What an optional filter argument means for a column value: `none` is
unrestricted, `some s` is membership in `s`. -/
def optMem (o : Option (Finset Int)) (v : Int) : Prop :=
  match o with
  | none => True
  | some s => v ∈ s

instance (o : Option (Finset Int)) (v : Int) : Decidable (optMem o v) := by
  unfold optMem
  cases o with
  | none => exact inferInstanceAs (Decidable True)
  | some s => exact inferInstanceAs (Decidable (v ∈ s))

/-! ## Descriptor upsert (`upsert_structures_descriptors`)

The persisted `Structures` table is modelled by the list of its rows
projected to `(id, smiles)`.  The input `descriptors: dict[str, dict]` is
modelled as an association list in the dict's iteration order (Python dicts
cannot repeat keys, but nothing below needs that).  The run returns the
IN-lists of the statements issued by the key-resolution pre-pass together
with the descriptor rows handed to `bulk_save_objects`. -/

/-- One assignment `m[row.smiles] = row.id` of the dict comprehension
`{structure.smiles: structure.id for structure in structures_query}`
(a later row overwrites an earlier one with the same key). -/
def dictInsert (m : String → Option Int) (row : Int × String) : String → Option Int :=
  fun key => if key = row.2 then some row.1 else m key

/-- The dict comprehension over the pre-pass query's rows. -/
def buildDict (rows : List (Int × String)) : String → Option Int :=
  rows.foldl dictInsert (fun _ => none)

/-- `upsert_structures_descriptors`: one pre-pass query filtered on
`Structures.smiles.in_(smiles_set)` (the set of the input's keys), a dict
from its rows, then for each input entry in order: skip it when its key is
not in the dict (`.get` returns `None`), otherwise emit one
`StructuresDescriptors(structure_id, descriptor_name, descriptor_value)` row
per attribute whose name is not `"smiles"`.  Returns (pre-pass IN-lists,
emitted rows). -/
def upsert_structures_descriptors_run {V : Type} (structures : List (Int × String))
    (descriptors : List (String × List (String × V))) :
    List (List String) × List (Int × String × V) :=
  let smiles_set := (descriptors.map Prod.fst).dedup
  let structures_query := structures.filter (fun s => decide (s.2 ∈ smiles_set))
  let smiles_to_structure_id := buildDict structures_query
  let rows := descriptors.flatMap (fun e =>
    match smiles_to_structure_id e.1 with
    | none => []
    | some sid => e.2.flatMap (fun a =>
        if a.1 ≠ "smiles" then [(sid, a.1, a.2)] else []))
  ([smiles_set], rows)

/-- Key resolution, written directly: the id of the last persisted Structure
row carrying the given smiles key (the first match in the reversed table),
if any. -/
def resolveLast (structures : List (Int × String)) (smiles : String) : Option Int :=
  (structures.reverse.find? (fun s => decide (s.2 = smiles))).map Prod.fst

/-! ## Constructor-time schema bootstrap -/

/-- Observable bootstrap state of a storage location: which tables exist and
the rows of the `schema_version` table. -/
structure StoreState where
  tables : List String
  schemaVersionRows : List Nat
deriving DecidableEq, Repr

/-- `Storage.SCHEMA_VERSION`. -/
def SCHEMA_VERSION : Nat := 6

/-- Modelled from the spec: the table set declared on `Base.metadata` comes
from `storage/models.py`, which is not part of the engine source examined
here; per the spec the Schema Bootstrapper creates the full schema, which in
particular contains the `schema_version` marker table (`SchemaVersion`
is imported into the metadata).  Only membership of `"schema_version"`
matters below. -/
def metadataTables : List String :=
  ["journals", "references", "schema_version", "structures",
   "structures_descriptors", "taxo_names", "taxo_parents",
   "taxo_rank_names", "taxo_ranks", "triplets"]

/-- `create_tables`: `Base.metadata.create_all` (create the metadata's tables
that do not yet exist), then insert one `SchemaVersion(version=6)` row and
commit. -/
def create_tables (s : StoreState) : StoreState :=
  { tables := s.tables ++ metadataTables.filter (fun t => decide (t ∉ s.tables)),
    schemaVersionRows := s.schemaVersionRows ++ [SCHEMA_VERSION] }

/-- `Storage.__init__` after the limit probe: query `sqlite_master` for a
table named `schema_version`; when the result is empty, call
`create_tables`, otherwise leave the location untouched. -/
def storageInit (s : StoreState) : StoreState :=
  if "schema_version" ∈ s.tables then s else create_tables s

/-! ## Chunker lemmas -/

theorem chunkPosAux_flatten (n : Nat) :
    ∀ (fuel : Nat) (l : List α), l.length ≤ fuel →
      (chunkPosAux n fuel l).flatten = l := by
  intro fuel
  induction fuel with
  | zero =>
    intro l hl
    cases l with
    | nil => simp [chunkPosAux]
    | cons x xs => simp at hl
  | succ fuel ih =>
    intro l hl
    cases l with
    | nil => simp [chunkPosAux]
    | cons x xs =>
      rw [chunkPosAux]
      simp only [List.flatten_cons]
      rw [ih _ (by simp [List.length_drop]; simp at hl; omega)]
      exact List.take_append_drop _ _

theorem chunkPos_flatten (n : Nat) (l : List α) : (chunkPos n l).flatten = l :=
  chunkPosAux_flatten n l.length l le_rfl

theorem chunkPosAux_length_le (n : Nat) :
    ∀ (fuel : Nat) (l : List α) (c : List α), c ∈ chunkPosAux n fuel l →
      c.length ≤ n + 1 := by
  intro fuel
  induction fuel with
  | zero =>
    intro l c hc
    cases l with
    | nil => simp [chunkPosAux] at hc
    | cons x xs => simp [chunkPosAux] at hc
  | succ fuel ih =>
    intro l c hc
    cases l with
    | nil => simp [chunkPosAux] at hc
    | cons x xs =>
      rw [chunkPosAux] at hc
      rcases List.mem_cons.mp hc with h | h
      · subst h; simp
      · exact ih _ _ h

theorem chunkPos_length_le (n : Nat) (l : List α) (c : List α)
    (hc : c ∈ chunkPos n l) : c.length ≤ n + 1 :=
  chunkPosAux_length_le n l.length l c hc

theorem chunkPosAux_ne_nil (n : Nat) :
    ∀ (fuel : Nat) (l : List α) (c : List α), c ∈ chunkPosAux n fuel l →
      c ≠ [] := by
  intro fuel
  induction fuel with
  | zero =>
    intro l c hc
    cases l with
    | nil => simp [chunkPosAux] at hc
    | cons x xs => simp [chunkPosAux] at hc
  | succ fuel ih =>
    intro l c hc
    cases l with
    | nil => simp [chunkPosAux] at hc
    | cons x xs =>
      rw [chunkPosAux] at hc
      rcases List.mem_cons.mp hc with h | h
      · subst h; simp
      · exact ih _ _ h

theorem chunkPos_ne_nil (n : Nat) (l : List α) (c : List α)
    (hc : c ∈ chunkPos n l) : c ≠ [] :=
  chunkPosAux_ne_nil n l.length l c hc

/-! ## Execute-loop lemmas -/

theorem runChunks_none (failMsg : String) (chunks : List (List α)) :
    ∀ (idx : Nat) (pending : List α) (log : List Nat),
      runChunks none failMsg idx pending log chunks =
        (log.reverse ++ List.range' idx chunks.length, Except.ok (pending ++ chunks.flatten)) := by
  induction chunks with
  | nil => intro idx pending log; simp [runChunks]
  | cons c rest ih =>
    intro idx pending log
    rw [runChunks]
    simp only [reduceCtorEq, if_false]
    rw [ih]
    simp [List.range'_succ, List.append_assoc]

theorem runChunks_fail (failMsg : String) (chunks : List (List α)) :
    ∀ (j idx : Nat) (pending : List α) (log : List Nat), j < chunks.length →
      runChunks (some (idx + j)) failMsg idx pending log chunks =
        (log.reverse ++ List.range' idx (j + 1), Except.error (UpsertError.dbError failMsg)) := by
  induction chunks with
  | nil => intro j idx pending log hj; simp at hj
  | cons c rest ih =>
    intro j idx pending log hj
    rw [runChunks]
    cases j with
    | zero => simp [List.range'_succ]
    | succ k =>
      have hne : ¬ (some (idx + (k + 1)) = some idx) := by
        simp only [Option.some.injEq]; omega
      rw [if_neg hne]
      have : idx + (k + 1) = (idx + 1) + k := by omega
      rw [this, ih k (idx + 1) (pending ++ c) (idx :: log) (by simpa using hj)]
      simp [List.range'_succ, List.append_assoc]

/-! ## Expansion-query lemmas -/

theorem filter_or_map_toFinset (l : List (Int × Int)) (p q : Int × Int → Bool) :
    ((l.filter (fun r => p r || q r)).map Prod.snd).toFinset =
      ((l.filter p).map Prod.snd).toFinset ∪ ((l.filter q).map Prod.snd).toFinset := by
  ext x
  simp only [List.mem_toFinset, List.mem_map, List.mem_filter, Finset.mem_union,
    Bool.or_eq_true]
  constructor
  · rintro ⟨r, ⟨hr, hp | hq⟩, hx⟩
    · exact Or.inl ⟨r, ⟨hr, hp⟩, hx⟩
    · exact Or.inr ⟨r, ⟨hr, hq⟩, hx⟩
  · rintro (⟨r, ⟨hr, hp⟩, hx⟩ | ⟨r, ⟨hr, hq⟩, hx⟩)
    · exact ⟨r, ⟨hr, Or.inl hp⟩, hx⟩
    · exact ⟨r, ⟨hr, Or.inr hq⟩, hx⟩

theorem expandSpec_append (table : List (Int × Int)) (l₁ l₂ : List Int) :
    expandSpec table (l₁ ++ l₂) = expandSpec table l₁ ∪ expandSpec table l₂ := by
  unfold expandSpec
  rw [show (fun r : Int × Int => decide (r.1 ∈ l₁ ++ l₂)) =
      (fun r : Int × Int => decide (r.1 ∈ l₁) || decide (r.1 ∈ l₂)) from
    funext fun r => by simp [List.mem_append]]
  exact filter_or_map_toFinset table _ _

theorem expandSpec_nil (table : List (Int × Int)) : expandSpec table [] = ∅ := by
  simp [expandSpec]

theorem get_generics_foldl (table : List (Int × Int)) (chunks : List (List Int)) :
    ∀ acc : Finset Int,
      chunks.foldl (fun output chunk =>
        output ∪ ((table.filter (fun r => decide (r.1 ∈ chunk))).map Prod.snd).toFinset) acc =
      acc ∪ expandSpec table chunks.flatten := by
  induction chunks with
  | nil => intro acc; simp [expandSpec_nil]
  | cons c rest ih =>
    intro acc
    rw [List.foldl_cons, ih, List.flatten_cons, expandSpec_append, Finset.union_assoc]
    rfl

/-- With any positive limit (SQLite's variable-number limit is at least 1),
`get_generics_of_generics` succeeds and returns exactly the `out` values of
the rows whose `inp` value lies in `items`. -/
theorem get_generics_ok (table : List (Int × Int)) (n : Nat) (items : List Int) :
    get_generics_of_generics table (n + 1) items = Except.ok (expandSpec table items) := by
  unfold get_generics_of_generics pyChunks
  simp only [Except.map]
  rw [get_generics_foldl, chunkPos_flatten]
  simp

theorem runChunks_none₀ (failMsg : String) (chunks : List (List α)) :
    runChunks none failMsg 0 [] [] chunks =
      (List.range' 0 chunks.length, Except.ok chunks.flatten) := by
  simpa using runChunks_none failMsg chunks 0 [] []

theorem runChunks_fail₀ (failMsg : String) (chunks : List (List α)) (j : Nat)
    (hj : j < chunks.length) :
    runChunks (some j) failMsg 0 [] [] chunks =
      (List.range' 0 (j + 1), Except.error (UpsertError.dbError failMsg)) := by
  simpa using runChunks_fail failMsg chunks j 0 [] [] hj

/-! ## Triplet-query lemmas -/

theorem get_triplets_for_mem (db : List (Int × Int × Int))
    (r s t : Option (Finset Int)) (row : Int × Int × Int) :
    row ∈ get_triplets_for db r s t ↔
      (row ∈ db ∧ optMem r row.1 ∧ optMem s row.2.1 ∧ optMem t row.2.2) := by
  cases r <;> cases s <;> cases t <;>
    simp [get_triplets_for, optMem, List.mem_filter, and_assoc]

/-! ## Dictionary / resolution lemmas for the descriptor upsert -/

theorem foldl_dictInsert (rows : List (Int × String)) :
    ∀ (m : String → Option Int) (k : String),
      rows.foldl dictInsert m k =
        match rows.reverse.find? (fun s => decide (s.2 = k)) with
        | some r => some r.1
        | none => m k := by
  induction rows with
  | nil => intro m k; simp
  | cons r rows ih =>
    intro m k
    rw [List.foldl_cons, ih, List.reverse_cons, List.find?_append]
    cases h : rows.reverse.find? (fun s => decide (s.2 = k)) with
    | some r' => simp [h, Option.orElse]
    | none =>
      simp only [h, Option.orElse, Option.none_orElse]
      by_cases hk : r.2 = k
      · simp [List.find?, hk, dictInsert]
      · have : ¬ (k = r.2) := fun he => hk he.symm
        simp [List.find?, hk, dictInsert, this]

theorem buildDict_eq (rows : List (Int × String)) (k : String) :
    buildDict rows k =
      (rows.reverse.find? (fun s => decide (s.2 = k))).map Prod.fst := by
  rw [buildDict, foldl_dictInsert]
  cases rows.reverse.find? (fun s => decide (s.2 = k)) <;> simp

theorem find?_filter_of_imp {A : Type} (l : List A) (p q : A → Bool)
    (h : ∀ a, p a = true → q a = true) :
    (l.filter q).find? p = l.find? p := by
  induction l with
  | nil => simp
  | cons a l ih =>
    rw [List.filter_cons]
    by_cases hq : q a = true
    · rw [if_pos hq]
      cases hp : p a <;> simp [List.find?_cons, hp, ih]
    · have hp : p a = false := by
        cases hpa : p a
        · rfl
        · exact absurd (h a hpa) hq
      rw [if_neg hq, ih]
      simp [List.find?_cons, hp]

/-- For a key that occurs in the input's key set, the dict built from the
key-set-filtered `Structures` query resolves to the id of the last persisted
row with that key — the same answer the unfiltered table gives. -/
theorem buildDict_filter_eq_resolveLast (structures : List (Int × String))
    (keys : List String) (k : String) (hk : k ∈ keys) :
    buildDict (structures.filter (fun s => decide (s.2 ∈ keys))) k =
      resolveLast structures k := by
  rw [buildDict_eq, resolveLast, ← List.filter_reverse]
  rw [find?_filter_of_imp structures.reverse _ _ ?_]
  intro a ha
  simp only [decide_eq_true_eq] at ha ⊢
  rw [ha]; exact hk

theorem flatMap_congr_mem {A B : Type} (l : List A) (f g : A → List B)
    (h : ∀ a ∈ l, f a = g a) : l.flatMap f = l.flatMap g := by
  induction l with
  | nil => rfl
  | cons a l ih =>
    rw [List.flatMap_cons, List.flatMap_cons, h a (by simp), ih (fun a ha => h a (by simp [ha]))]

theorem flatMap_ite_singleton {A B : Type} (l : List A) (P : A → Prop) [DecidablePred P]
    (f : A → B) :
    (l.flatMap fun a => if P a then [f a] else []) = (l.filter (fun a => decide (P a))).map f := by
  induction l with
  | nil => rfl
  | cons a l ih =>
    by_cases hp : P a <;>
      simp [List.flatMap_cons, List.filter_cons, hp, ih]

/-! ## The claims -/

/-- C1: the claim states that every batch upsert partitions its input into
consecutive chunks whose concatenation is the input and whose sizes satisfy
`len(chunk) * params_per_item <= limit`, with `params_per_item = 4` for the
four-column taxonomy-parent records.  Evaluation at the failing input: with
`list_limit = 4`, a two-record `upsert_taxo_parenting` call produces a single
chunk of both records — `2 * 4 = 8 > 4` bound parameters — because the method
divides the limit by 2 although each record binds 4 columns (`upsert_triplets`
divides by its column count 3, so the intended divisor here is clearly 4). -/
theorem claim_C1_chunk_param_bound_violated :
    upsert_taxo_parenting_chunks 4 [(0, 1, 2, 1), (3, 4, 5, 1)] =
      Except.ok [[{ id := 0, child_id := 1, parent_id := 2, distance := 1 },
                  { id := 3, child_id := 4, parent_id := 5, distance := 1 }]] ∧
    taxoParentingParams = 4 ∧ ¬ (2 * taxoParentingParams ≤ 4) :=
  ⟨rfl, rfl, by decide⟩

/-- C2: a batch upsert call is atomic: all chunks run inside one unit of work
with a single commit after the last chunk; a failure injected into any chunk
leaves the visible state exactly as before the call (earlier
successfully-executed chunks of the same call are rolled back too), while a
failure-free call commits precisely the whole input. -/
theorem claim_C2_upsert_atomicity {α : Type} (d limit : Nat) (db xs : List α)
    (failMsg : String) (j : Nat) (chunks : List (List α))
    (hok : upsertChunksOf d limit xs = Except.ok chunks) (hj : j < chunks.length) :
    (chunkedUpsertRun d limit db xs (some j) failMsg).1 = db ∧
    (chunkedUpsertRun d limit db xs none failMsg).1 = db ++ xs ∧
    (chunkedUpsertRun d limit db xs none failMsg).2.2 = Except.ok () := by
  obtain ⟨n, hn, hchunks⟩ : ∃ n, limit / d = n + 1 ∧ chunks = chunkPos n xs := by
    unfold upsertChunksOf pyChunks at hok
    cases h : limit / d with
    | zero => rw [h] at hok; cases hok
    | succ n =>
      rw [h] at hok
      exact ⟨n, rfl, (Except.ok.inj hok).symm⟩
  subst hchunks
  simp only [chunkedUpsertRun, upsertChunksOf, pyChunks, hn,
    runChunks_fail₀ failMsg (chunkPos n xs) j hj, runChunks_none₀, chunkPos_flatten]
  exact ⟨trivial, trivial, trivial⟩

/-- Witness for C2 at `d = 2`, `limit = 4`, `db = [9]`, input `[1, 2, 3]`
(chunks `[[1, 2], [3]]`), failure injected into chunk 1. -/
theorem claim_C2_upsert_atomicity_witness :
    upsertChunksOf 2 4 [1, 2, 3] = Except.ok [[1, 2], [3]] ∧ 1 < 2 ∧
    (chunkedUpsertRun 2 4 [9] [1, 2, 3] (some 1) "boom").1 = [9] ∧
    (chunkedUpsertRun 2 4 [9] [1, 2, 3] none "boom").1 = [9] ++ [1, 2, 3] ∧
    (chunkedUpsertRun 2 4 [9] [1, 2, 3] none "boom").2.2 = Except.ok () :=
  ⟨rfl, by decide,
    claim_C2_upsert_atomicity 2 4 [9] [1, 2, 3] "boom" 1 [[1, 2], [3]] rfl (by decide)⟩

/-- C3: each of the three `get_triplets_for` filters is independently
optional: a present set constrains its column to membership, present filters
are conjoined with AND, and three `None`s return every triplet row
deduplicated as a set of 3-tuples. -/
theorem claim_C3_triplet_filter_semantics :
    ∀ (db : List (Int × Int × Int)) (r s t : Option (Finset Int)),
      (∀ row, row ∈ get_triplets_for db r s t ↔
        (row ∈ db ∧ optMem r row.1 ∧ optMem s row.2.1 ∧ optMem t row.2.2)) ∧
      get_triplets_for db none none none = db.toFinset := by
  intro db r s t
  refine ⟨fun row => get_triplets_for_mem db r s t row, ?_⟩
  ext row
  rw [get_triplets_for_mem]
  simp [optMem]

/-- C4, counterexample: with cached limit 1 (smaller than the 4 bound columns
of a taxonomy-parent record) the upsert does not degrade to one-item chunks —
`range(0, len, 1 // 2)` raises `ValueError`, so the call fails instead of
completing. -/
theorem claim_C4_counterexample :
    upsert_taxo_parenting_chunks 1 [(0, 1, 2, 1)] =
      Except.error "ValueError: range() arg 3 must not be zero" ∧
    1 < taxoParentingParams :=
  ⟨rfl, by decide⟩

/-- C4, amended: when the cached limit divided by the method's divisor is
zero, the call raises `ValueError` (zero `range` step) instead of degrading
to chunk size 1; whenever the quotient is positive the call completes,
partitioning the input into consecutive chunks of at most that size. -/
theorem claim_C4_no_floor_to_one {α : Type} (d limit : Nat) (xs : List α) :
    (limit / d = 0 → upsertChunksOf d limit xs =
        Except.error "ValueError: range() arg 3 must not be zero") ∧
    (0 < limit / d → ∃ chunks, upsertChunksOf d limit xs = Except.ok chunks ∧
        chunks.flatten = xs ∧ ∀ c ∈ chunks, c.length ≤ limit / d) := by
  constructor
  · intro h
    unfold upsertChunksOf pyChunks
    rw [h]
  · intro h
    obtain ⟨n, hn⟩ : ∃ n, limit / d = n + 1 := ⟨limit / d - 1, by omega⟩
    refine ⟨chunkPos n xs, ?_, chunkPos_flatten n xs, ?_⟩
    · unfold upsertChunksOf pyChunks
      rw [hn]
    · intro c hc
      rw [hn]
      exact chunkPos_length_le n xs c hc

/-- Witness for C4 (amended): `limit = 1, d = 2` errors; `limit = 4, d = 2`
completes and partitions. -/
theorem claim_C4_no_floor_to_one_witness :
    (1 : Nat) / 2 = 0 ∧
    upsertChunksOf 2 1 [5] = Except.error "ValueError: range() arg 3 must not be zero" ∧
    0 < (4 : Nat) / 2 ∧
    (∃ chunks, upsertChunksOf 2 4 [5, 6, 7] = Except.ok chunks ∧
      chunks.flatten = [5, 6, 7] ∧ ∀ c ∈ chunks, c.length ≤ (4 : Nat) / 2) :=
  ⟨by decide, (claim_C4_no_floor_to_one 2 1 [5]).1 (by decide), by decide,
    (claim_C4_no_floor_to_one 2 4 [5, 6, 7]).2 (by decide)⟩

/-- C5, counterexample: the key-resolution pre-pass of
`upsert_structures_descriptors` issues a single statement over the whole key
set even when that set exceeds the parameter limit: with limit 1 and two
distinct keys, the one pre-pass statement binds an IN-list of 2 parameters. -/
theorem claim_C5_counterexample :
    (upsert_structures_descriptors_run ([] : List (Int × String))
        [("a", [("mw", (1 : Int))]), ("b", [("mw", (2 : Int))])]).1 = [["a", "b"]] ∧
    ¬ ((["a", "b"] : List String).length ≤ 1) :=
  ⟨rfl, by decide⟩

/-- C5, amended: the pre-pass is not chunked — it always issues exactly one
query whose IN-list is the input's entire distinct key set, so whenever that
set is larger than the cached parameter limit, a pre-pass statement binds
more parameters than the limit. -/
theorem claim_C5_prepass_unchunked {V : Type} (structures : List (Int × String))
    (descriptors : List (String × List (String × V))) (limit : Nat)
    (hbig : limit < ((descriptors.map Prod.fst).dedup).length) :
    (upsert_structures_descriptors_run structures descriptors).1.length = 1 ∧
    ∃ q ∈ (upsert_structures_descriptors_run structures descriptors).1,
      limit < q.length := by
  refine ⟨rfl, ⟨(descriptors.map Prod.fst).dedup, ?_, hbig⟩⟩
  simp [upsert_structures_descriptors_run]

/-- Witness for C5 (amended) at limit 1 and two distinct keys. -/
theorem claim_C5_prepass_unchunked_witness :
    1 < (([("a", [("mw", (1 : Int))]), ("b", [("x", (2 : Int))])].map Prod.fst).dedup).length ∧
    (upsert_structures_descriptors_run [(7, "a")]
        [("a", [("mw", (1 : Int))]), ("b", [("x", (2 : Int))])]).1.length = 1 ∧
    ∃ q ∈ (upsert_structures_descriptors_run [(7, "a")]
        [("a", [("mw", (1 : Int))]), ("b", [("x", (2 : Int))])]).1, 1 < q.length :=
  ⟨by decide,
    claim_C5_prepass_unchunked [(7, "a")]
      [("a", [("mw", (1 : Int))]), ("b", [("x", (2 : Int))])] 1 (by decide)⟩

/-- C6: `upsert_structures_descriptors` silently skips entries whose key does
not resolve to a persisted Structure (zero rows, no error — the run always
returns), emits one row per descriptor attribute with the resolved surrogate
structure id for every other entry, and excludes the reserved attribute name
`"smiles"` from the emitted rows. -/
theorem claim_C6_descriptor_row_semantics {V : Type} (structures : List (Int × String))
    (descriptors : List (String × List (String × V))) :
    (upsert_structures_descriptors_run structures descriptors).2 =
      descriptors.flatMap (fun e =>
        match resolveLast structures e.1 with
        | none => []
        | some sid => (e.2.filter (fun a => decide (a.1 ≠ "smiles"))).map
            (fun a => (sid, a.1, a.2))) := by
  show descriptors.flatMap (fun e =>
      match buildDict (structures.filter (fun s =>
          decide (s.2 ∈ (descriptors.map Prod.fst).dedup))) e.1 with
      | none => []
      | some sid => e.2.flatMap (fun a =>
          if a.1 ≠ "smiles" then [(sid, a.1, a.2)] else [])) = _
  apply flatMap_congr_mem
  intro e he
  rw [buildDict_filter_eq_resolveLast structures ((descriptors.map Prod.fst).dedup) e.1
      (List.mem_dedup.mpr (List.mem_map_of_mem Prod.fst he))]
  cases resolveLast structures e.1 with
  | none => rfl
  | some sid => exact flatMap_ite_singleton e.2 _ _

/-- C7: for a fixed store state, the chunked many-to-many expansion over a
key set equals the union of the expansions over the pieces of any split of
that key set; results are deduplicated sets independent of chunk order. -/
theorem claim_C7_expansion_union (table : List (Int × Int)) (limit : Nat)
    (l₁ l₂ : List Int) (h : 0 < limit) :
    ∃ s₁ s₂ : Finset Int,
      get_generics_of_generics table limit l₁ = Except.ok s₁ ∧
      get_generics_of_generics table limit l₂ = Except.ok s₂ ∧
      get_generics_of_generics table limit (l₁ ++ l₂) = Except.ok (s₁ ∪ s₂) := by
  obtain ⟨n, rfl⟩ : ∃ n, limit = n + 1 := ⟨limit - 1, by omega⟩
  exact ⟨expandSpec table l₁, expandSpec table l₂, get_generics_ok table n l₁,
    get_generics_ok table n l₂, by rw [get_generics_ok, expandSpec_append]⟩

/-- Witness for C7: four mapping rows, limit 2 (so the full key set spans two
chunks), split `[1, 2] ++ [3]`. -/
theorem claim_C7_expansion_union_witness :
    0 < 2 ∧ ∃ s₁ s₂ : Finset Int,
      get_generics_of_generics [(1, 10), (1, 11), (2, 20), (3, 30)] 2 [1, 2] = Except.ok s₁ ∧
      get_generics_of_generics [(1, 10), (1, 11), (2, 20), (3, 30)] 2 [3] = Except.ok s₂ ∧
      get_generics_of_generics [(1, 10), (1, 11), (2, 20), (3, 30)] 2 ([1, 2] ++ [3]) =
        Except.ok (s₁ ∪ s₂) :=
  ⟨by decide, claim_C7_expansion_union [(1, 10), (1, 11), (2, 20), (3, 30)] 2 [1, 2] [3]
    (by decide)⟩

/-- C8, counterexample: when a chunk's insert fails, the propagated error is
the underlying driver exception, not an error naming the entity kind and the
failing chunk's ordinal: no `PersistenceFailure` exists in the engine. -/
theorem claim_C8_counterexample :
    (chunkedUpsertRun 2 4 ([] : List Int) [1, 2, 3] (some 0)
        "sqlite3.IntegrityError: UNIQUE constraint failed").2.2 =
      Except.error (UpsertError.dbError "sqlite3.IntegrityError: UNIQUE constraint failed") ∧
    namesKindAndOrdinal
      (UpsertError.dbError "sqlite3.IntegrityError: UNIQUE constraint failed") = false :=
  ⟨rfl, rfl⟩

/-- C8, amended: a failing chunk's underlying exception propagates to the
caller unchanged and without internal retry — chunks `0 .. j` are each
attempted exactly once, in order, and none after the failing one — and the
propagated error is not of the kind-and-ordinal-naming shape the spec calls
`PersistenceFailure`. -/
theorem claim_C8_failure_propagation {α : Type} (d limit : Nat) (db xs : List α)
    (failMsg : String) (j : Nat) (chunks : List (List α))
    (hok : upsertChunksOf d limit xs = Except.ok chunks) (hj : j < chunks.length) :
    (chunkedUpsertRun d limit db xs (some j) failMsg).2.2 =
      Except.error (UpsertError.dbError failMsg) ∧
    (chunkedUpsertRun d limit db xs (some j) failMsg).2.1 = List.range' 0 (j + 1) ∧
    namesKindAndOrdinal (UpsertError.dbError failMsg) = false := by
  obtain ⟨n, hn, hchunks⟩ : ∃ n, limit / d = n + 1 ∧ chunks = chunkPos n xs := by
    unfold upsertChunksOf pyChunks at hok
    cases h : limit / d with
    | zero => rw [h] at hok; cases hok
    | succ n =>
      rw [h] at hok
      exact ⟨n, rfl, (Except.ok.inj hok).symm⟩
  subst hchunks
  simp only [chunkedUpsertRun, upsertChunksOf, pyChunks, hn,
    runChunks_fail₀ failMsg (chunkPos n xs) j hj]
  exact ⟨trivial, trivial, rfl⟩

/-- Witness for C8 (amended) at `d = 3`, `limit = 6`, input `[1, 2, 3, 4, 5]`
(chunks `[[1, 2], [3, 4], [5]]`), failure injected into chunk 2. -/
theorem claim_C8_failure_propagation_witness :
    upsertChunksOf 3 6 [1, 2, 3, 4, 5] = Except.ok [[1, 2], [3, 4], [5]] ∧ 2 < 3 ∧
    (chunkedUpsertRun 3 6 ([] : List Nat) [1, 2, 3, 4, 5] (some 2) "disk I/O error").2.2 =
      Except.error (UpsertError.dbError "disk I/O error") ∧
    (chunkedUpsertRun 3 6 ([] : List Nat) [1, 2, 3, 4, 5] (some 2) "disk I/O error").2.1 =
      List.range' 0 (2 + 1) ∧
    namesKindAndOrdinal (UpsertError.dbError "disk I/O error") = false :=
  ⟨rfl, by decide,
    claim_C8_failure_propagation 3 6 [] [1, 2, 3, 4, 5] "disk I/O error" 2
      [[1, 2], [3, 4], [5]] rfl (by decide)⟩

/-- C9: opening a storage location is idempotent: a first open with no
version marker creates the schema and stamps one version row; an open on an
already-bootstrapped location (the marker table exists) changes nothing — no
table re-creation, no second marker row. -/
theorem claim_C9_bootstrap_idempotent :
    ∀ s : StoreState,
      storageInit (storageInit s) = storageInit s ∧
      ("schema_version" ∈ s.tables → storageInit s = s) ∧
      ("schema_version" ∉ s.tables →
        (storageInit s).schemaVersionRows = s.schemaVersionRows ++ [SCHEMA_VERSION] ∧
        (storageInit s).tables =
          s.tables ++ metadataTables.filter (fun t => decide (t ∉ s.tables))) := by
  intro s
  by_cases h : "schema_version" ∈ s.tables
  · refine ⟨?_, fun _ => ?_, fun hn => absurd h hn⟩ <;> simp [storageInit, h]
  · have h2 : "schema_version" ∈ (create_tables s).tables := by
      unfold create_tables
      simp only [List.mem_append, List.mem_filter]
      right
      exact ⟨by simp [metadataTables], by simp [h]⟩
    have hs : storageInit s = create_tables s := by rw [storageInit, if_neg h]
    refine ⟨?_, fun hmem => absurd hmem h, fun _ => ?_⟩
    · rw [hs, storageInit, if_pos h2]
    · rw [hs]
      exact ⟨rfl, rfl⟩

/-- Witness for C9 at the fresh (empty) storage location. -/
theorem claim_C9_bootstrap_idempotent_witness :
    storageInit (storageInit ⟨[], []⟩) = storageInit ⟨[], []⟩ ∧
    "schema_version" ∉ (StoreState.mk [] []).tables ∧
    (storageInit ⟨[], []⟩).schemaVersionRows = [] ++ [SCHEMA_VERSION] ∧
    (storageInit ⟨[], []⟩).tables =
      [] ++ metadataTables.filter (fun t => decide (t ∉ (StoreState.mk [] []).tables)) :=
  ⟨(claim_C9_bootstrap_idempotent ⟨[], []⟩).1, by decide,
    ((claim_C9_bootstrap_idempotent ⟨[], []⟩).2.2 (by decide)).1,
    ((claim_C9_bootstrap_idempotent ⟨[], []⟩).2.2 (by decide)).2⟩

/-- C10: in `get_triplets_for` an empty set is not the unrestricted sentinel:
an empty set in any filter position yields the empty result (an empty IN-list
matches no rows), while `None` leaves that column unconstrained. -/
theorem claim_C10_empty_filter_vs_none :
    ∀ (db : List (Int × Int × Int)) (r s t : Option (Finset Int)),
      get_triplets_for db (some ∅) s t = ∅ ∧
      get_triplets_for db r (some ∅) t = ∅ ∧
      get_triplets_for db r s (some ∅) = ∅ ∧
      (∀ row, row ∈ get_triplets_for db none s t ↔
        (row ∈ db ∧ optMem s row.2.1 ∧ optMem t row.2.2)) := by
  intro db r s t
  refine ⟨?_, ?_, ?_, fun row => ?_⟩
  · ext row; rw [get_triplets_for_mem]; simp [optMem]
  · ext row; rw [get_triplets_for_mem]; simp [optMem]
  · ext row; rw [get_triplets_for_mem]; simp [optMem]
  · rw [get_triplets_for_mem]; simp [optMem]
